import Mathlib

/-!
# Verification model of the Direct Grants service (`src/server.js`)

A shallow embedding of the grant verification-and-distribution service.
The HTTP handlers are modelled as pure functions from an explicit server
state (the in-memory `grants` and `grantors` maps, kept as insertion-ordered
lists, matching JavaScript `Map` iteration order) and an environment record
(the chain access provider, wallet configuration and per-request fresh
identifiers) to a response and a new state.  Big-integer currency amounts
(`BigInt` in the source) are modelled as `Nat`; all amounts in the source are
non-negative, and `BigInt` division truncates, which on non-negative values
agrees with `Nat` floor division.
-/

namespace DirectGrants

/-- Treasury address constant (`src/server.js` line 27). -/
def TREASURY_ADDRESS : String := "0xccD7200024A8B5708d381168ec2dB0DC587af83F"

/-- Fee percentage constant (`src/server.js` line 29, `FEE_PERCENT = 5n`). -/
def FEE_PERCENT : Nat := 5

/-- ASCII lowercase of one character (JavaScript `toLowerCase` restricted to
the ASCII range; addresses and transaction hashes are ASCII). -/
def lowerChar (c : Char) : Char :=
  if 'A' ≤ c ∧ c ≤ 'Z' then Char.ofNat (c.toNat + 32) else c

/-- JavaScript `s.toLowerCase()` for ASCII strings, defined by structural
recursion over the character list so that it evaluates in the kernel. -/
def lowerStr (s : String) : String := ⟨s.data.map lowerChar⟩

/-- JavaScript truthiness for an optional string field: `undefined` and the
empty string are falsy.  `truthy o` is `some s` exactly when the field is
present and non-empty. -/
def truthy (o : Option String) : Option String :=
  match o with
  | some s => if s.isEmpty then none else some s
  | none => none

/-- JavaScript `x || d` for an optional string `x`: the default `d` is used
when the field is absent or empty (falsy). -/
def orDefault (o : Option String) (d : String) : String :=
  match truthy o with
  | some s => s
  | none => d

/-! ## Amount formatter / parser (`formatETH` / `parseETH`, lines 57-64)

`formatETH` in the source is
`parseFloat(ethers.formatEther(wei)).toFixed(6) + ' ETH'`:
the exact 18-decimal ether string is parsed to a double and re-rendered with
exactly 6 decimal digits.  We model the composition
`parseFloat ∘ formatEther` followed by `toFixed(6)` as exact round-half-up of
`wei / 10^12` to an integral number of micro-ether (`toFixed` rounds half
away from zero); the binary double rounding performed by `parseFloat` agrees
with this exact model whenever the ether value has at most about 15
significant decimal digits, which covers every amount appearing below.

`parseETH` is `ethers.parseEther(s.replace(' ETH', '').trim())`; JavaScript
`String.replace` with a string pattern removes only the first occurrence.
`parseEther` splits on `'.'`, requires digit characters and at most 18
fractional digits, and yields `whole * 10^18 + frac * 10^(18 - frac.length)`.
Negative amounts are outside the modelled domain (`Nat` amounts). -/

/-- The decimal digit character for `d < 10`. -/
def digitChar (d : Nat) : Char := Char.ofNat (48 + d)

/-- Fuel-based rendering of a natural number as its decimal digit list
(most significant first).  Structural in the fuel so that it reduces in the
kernel; `natToDigits` supplies sufficient fuel. -/
def natToDigitsAux : Nat → Nat → List Char
  | 0, _ => []
  | fuel + 1, n =>
    if n < 10 then [digitChar n]
    else natToDigitsAux fuel (n / 10) ++ [digitChar (n % 10)]

/-- Decimal digit list of `n`, most significant first, no leading zeros
(except for `0` itself, rendered `['0']`). -/
def natToDigits (n : Nat) : List Char := natToDigitsAux (n + 1) n

/-- Numeric value of a decimal digit character, `none` on a non-digit. -/
def digitVal (c : Char) : Option Nat :=
  if '0' ≤ c ∧ c ≤ '9' then some (c.toNat - 48) else none

/-- Left fold of decimal digits onto an accumulator; fails on a non-digit
character. -/
def parseDigitsAux : List Char → Nat → Option Nat
  | [], acc => some acc
  | c :: cs, acc =>
    match digitVal c with
    | some d => parseDigitsAux cs (acc * 10 + d)
    | none => none

/-- The fractional part of `toFixed(6)` output: `m < 10^6` zero-padded to
exactly 6 digits. -/
def pad6 (m : Nat) : List Char :=
  List.replicate (6 - (natToDigits m).length) '0' ++ natToDigits m

/-- Model of `formatETH` (line 57-59): round `wei` half-up to micro-ether
and render with 6 fixed decimals and the `" ETH"` suffix. -/
def formatETH (wei : Nat) : String :=
  let micro := (wei + 5 * 10 ^ 11) / 10 ^ 12
  ⟨natToDigits (micro / 10 ^ 6) ++ '.' :: pad6 (micro % 10 ^ 6) ++ [' ', 'E', 'T', 'H']⟩

/-- JavaScript `s.replace(' ETH', '')`: remove the first occurrence of the
four-character pattern `" ETH"`, leaving the rest of the string unchanged. -/
def replaceFirstETH : List Char → List Char
  | [] => []
  | c :: cs =>
    if (c :: cs).take 4 = [' ', 'E', 'T', 'H'] then cs.drop 3
    else c :: replaceFirstETH cs

/-- Whitespace recognised by JavaScript `String.trim` (restricted to the
ASCII whitespace relevant here). -/
def isTrimSpace (c : Char) : Bool :=
  c = ' ' ∨ c = '\t' ∨ c = '\n' ∨ c = '\r'

/-- JavaScript `String.trim`: strip leading and trailing whitespace. -/
def trimChars (cs : List Char) : List Char :=
  ((cs.dropWhile isTrimSpace).reverse.dropWhile isTrimSpace).reverse

/-- Split a character list at the first `'.'`: the prefix before it, and
`some` suffix after it when a dot occurs. -/
def breakDot : List Char → List Char × Option (List Char)
  | [] => ([], none)
  | c :: cs =>
    if c = '.' then ([], some cs)
    else
      let p := breakDot cs
      (c :: p.1, p.2)

/-- Model of `ethers.parseEther` on a cleaned decimal string: digits with at
most one dot and at most 18 fractional digits, valued in wei.  A second dot
or any non-digit character fails (as the `parseEther` regex does). -/
def parseEtherChars (cs : List Char) : Option Nat :=
  match breakDot cs with
  | (whole, none) =>
    if whole.isEmpty then none
    else (parseDigitsAux whole 0).map (· * 10 ^ 18)
  | (whole, some fs) =>
    if (whole.isEmpty && fs.isEmpty) || decide (18 < fs.length) then none
    else
      match (if whole.isEmpty then some 0 else parseDigitsAux whole 0),
            (if fs.isEmpty then some 0 else parseDigitsAux fs 0) with
      | some wv, some fv => some (wv * 10 ^ 18 + fv * 10 ^ (18 - fs.length))
      | _, _ => none

/-- Model of `parseETH` (lines 61-64): strip the first `" ETH"`, trim, and
parse as an ether decimal string. -/
def parseETH (s : String) : Option Nat :=
  parseEtherChars (trimChars (replaceFirstETH s.data))

/-! ## Data model (`grants` and `grantors` maps, lines 50-51) -/

/-- A stored grant record (constructed at lines 202-218 and 368-383).
`grossAmount`, `fee` and `netAmount` are held as `BigInt → string` in the
source; modelled as `Nat`.  `mock: isMock || undefined` is modelled as a
`Bool` (`false` for the absent field). -/
structure Grant where
  id : String
  recipient : String
  grantor : String
  reason : String
  grossAmount : Nat
  grossAmountFormatted : String
  fee : Nat
  feeFormatted : String
  netAmount : Nat
  netAmountFormatted : String
  fundingTxHash : String
  distributionTxHash : String
  status : String
  mock : Bool
  createdAt : Nat
deriving DecidableEq

/-- Per-grantor aggregate (line 225: `{ totalGrants: 0, totalAmount: 0n }`). -/
structure GrantorStats where
  totalGrants : Nat
  totalAmount : Nat
deriving DecidableEq

/-- The service's in-memory state: the `grants` map (values in insertion
order, as JavaScript `Map` iteration guarantees; keys are the fresh UUIDs so
`set` never overwrites) and the `grantors` map as an insertion-ordered
association list. -/
structure ServerState where
  grants : List Grant
  grantors : List (String × GrantorStats)
deriving DecidableEq

/-- The empty initial state. -/
def ServerState.empty : ServerState := ⟨[], []⟩

/-- Line 144: `Array.from(grants.values()).find(g =>
g.fundingTxHash?.toLowerCase() === txHash.toLowerCase())` — first stored
record whose funding hash matches case-insensitively. -/
def findByFundingTx (gs : List Grant) (txHash : String) : Option Grant :=
  gs.find? (fun g => lowerStr g.fundingTxHash == lowerStr txHash)

/-- Lookup in the `grantors` association list (JavaScript `Map.get`). -/
def grantorsGet (l : List (String × GrantorStats)) (k : String) : Option GrantorStats :=
  (l.find? (fun p => p.1 == k)).map (fun p => p.2)

/-- Lines 223-229: create the grantor's stats entry if absent, then increment
`totalGrants` and add the gross amount.  Existing keys keep their position
(JavaScript `Map.set` on an existing key), new keys are appended. -/
def bumpGrantor (l : List (String × GrantorStats)) (addr : String) (gross : Nat) :
    List (String × GrantorStats) :=
  match l with
  | [] => [(addr, ⟨1, gross⟩)]
  | (k, v) :: rest =>
    if k = addr then (k, ⟨v.totalGrants + 1, v.totalAmount + gross⟩) :: rest
    else (k, v) :: bumpGrantor rest addr gross

/-! ## Environment: the chain access provider and per-request data -/

/-- An on-chain transaction as seen through `provider.getTransaction`:
`to` may be null (contract creation), `from` and `value` are present. -/
structure ChainTx where
  toField : Option String
  fromField : String
  value : Nat
deriving DecidableEq

/-- A transaction receipt; only `status` is consulted (line 161). -/
structure ChainReceipt where
  status : Nat
deriving DecidableEq

/-- The external environment of a single request: the chain access provider
(transaction/receipt lookup, address validity, transfer submission — all
external collaborators per the service), wallet configuration, and the fresh
values (UUIDs, clock) drawn during the request. -/
structure Env where
  getTransaction : String → Option ChainTx
  getTransactionReceipt : String → Option ChainReceipt
  isAddress : String → Bool
  walletConfigured : Bool
  sendTransaction : String → Nat → Except String String
  newId : String
  newMockDistHash : String
  now : Nat

/-- Request body of `POST /grants` (line 120). -/
structure GrantBody where
  recipient : Option String
  amount : Option String
  reason : Option String
  txHash : Option String
  grantor : Option String

/-- Outcome of a `POST /grants` request, one constructor per early return of
the handler.  `serverError` covers the `catch` block (line 240-243): a
`parseETH` throw or a `sendTransaction` throw, both surfaced as HTTP 500 with
the error message. -/
inductive GrantResult where
  | missingField
  | invalidRecipient
  | duplicateTx (grantId : String)
  | txNotFound
  | txNotConfirmed
  | wrongDestination (expected : String) (got : Option String)
  | walletNotConfigured
  | serverError (msg : String)
  | created (g : Grant)
deriving DecidableEq

/-- HTTP status code of each outcome. -/
def GrantResult.statusCode : GrantResult → Nat
  | .created _ => 201
  | .walletNotConfigured => 500
  | .serverError _ => 500
  | _ => 400

/-- Whether the outcome is the 201 success. -/
def GrantResult.isCreated : GrantResult → Bool
  | .created _ => true
  | _ => false

/-- Mock-mode default sender, `'0x' + '1'.repeat(40)` (line 178). -/
def mockSender : String := "0x1111111111111111111111111111111111111111"

/-- Step 3 of the handler (lines 150-179): funding verification in live mode,
request-supplied values in mock mode.  Returns the gross funding amount and
the transaction sender, or the early-return error.  `10 ^ 16` is
`ethers.parseEther('0.01')`, the mock default amount. -/
def grantVerify (env : Env) (body : GrantBody) (isMock : Bool) (txHash : String) :
    Except GrantResult (Nat × String) :=
  if isMock = false then
    match env.getTransaction txHash with
    | none => .error .txNotFound
    | some tx =>
      match env.getTransactionReceipt txHash with
      | none => .error .txNotConfirmed
      | some receipt =>
        if receipt.status ≠ 1 then .error .txNotConfirmed
        else if tx.toField.map lowerStr ≠ some (lowerStr TREASURY_ADDRESS) then
          .error (.wrongDestination TREASURY_ADDRESS tx.toField)
        else .ok (tx.value, tx.fromField)
  else
    match truthy body.amount with
    | some a =>
      match parseETH a with
      | none => .error (.serverError "invalid FixedNumber string value")
      | some v => .ok (v, orDefault body.grantor mockSender)
    | none => .ok (10 ^ 16, orDefault body.grantor mockSender)

/-- Step 5 of the handler (lines 183-200): live distribution through the
wallet, or a synthetic `0xmock...` hash in mock mode. -/
def grantDistribute (env : Env) (recipient : String) (netAmount : Nat) (isMock : Bool) :
    Except GrantResult String :=
  if isMock = false then
    if env.walletConfigured = false then .error .walletNotConfigured
    else
      match env.sendTransaction recipient netAmount with
      | .error msg => .error (.serverError msg)
      | .ok h => .ok h
  else .ok ("0xmock" ++ env.newMockDistHash)

/-- The grant record constructed at lines 202-218. -/
def mkGrant (env : Env) (body : GrantBody) (isMock : Bool) (recipient txHash txFrom : String)
    (fundingAmount fee netAmount : Nat) (distributeTxHash : String) : Grant :=
  { id := env.newId
    recipient := lowerStr recipient
    grantor := lowerStr (orDefault body.grantor txFrom)
    reason := orDefault body.reason "Direct grant"
    grossAmount := fundingAmount
    grossAmountFormatted := formatETH fundingAmount
    fee := fee
    feeFormatted := formatETH fee
    netAmount := netAmount
    netAmountFormatted := formatETH netAmount
    fundingTxHash := txHash
    distributionTxHash := distributeTxHash
    status := "completed"
    mock := isMock
    createdAt := env.now }

/-- Lines 220-229: store the record and update the grantor's stats (the
stats accumulate the gross funding amount). -/
def insertGrant (st : ServerState) (g : Grant) (fundingAmount : Nat) : ServerState :=
  { grants := st.grants ++ [g]
    grantors := bumpGrantor st.grantors g.grantor fundingAmount }

/-- The `POST /grants` handler (lines 119-244), after the whitelist
middleware: structural validation, recipient address validity, duplicate
funding-transaction check, funding verification, fee split, distribution,
and only then the insertion of the record.  JavaScript falsy checks
(`!recipient || !txHash`) are modelled with `truthy`. -/
def processGrants (env : Env) (st : ServerState) (body : GrantBody) (isMock : Bool) :
    GrantResult × ServerState :=
  match truthy body.recipient, truthy body.txHash with
  | some recipient, some txHash =>
    if env.isAddress recipient = false then (.invalidRecipient, st)
    else
      match findByFundingTx st.grants txHash with
      | some existing => (.duplicateTx existing.id, st)
      | none =>
        match grantVerify env body isMock txHash with
        | .error e => (e, st)
        | .ok (fundingAmount, txFrom) =>
          let fee := fundingAmount * FEE_PERCENT / 100
          let netAmount := fundingAmount - fee
          match grantDistribute env recipient netAmount isMock with
          | .error e => (e, st)
          | .ok distributeTxHash =>
            let grant := mkGrant env body isMock recipient txHash txFrom
              fundingAmount fee netAmount distributeTxHash
            (.created grant, insertGrant st grant fundingAmount)
  | _, _ => (.missingField, st)

/-! ## `POST /test/e2e` (lines 317-413)

The e2e endpoint runs verification and distribution in one call.  Unlike
`/grants`, it has no whitelist middleware, no recipient-address validity
check, **no duplicate-funding-transaction check**, and it stores the record
without updating the `grantors` stats map.  The recipient defaults to the
treasury address. -/

/-- The `POST /test/e2e` handler.  `wrongDestination` reuses the `/grants`
constructor; the e2e response carries no `expected`/`got` fields but the
error condition is the same (line 346). -/
def processE2E (env : Env) (st : ServerState) (txHash? recipient? : Option String) :
    GrantResult × ServerState :=
  match truthy txHash? with
  | none => (.missingField, st)
  | some txHash =>
    let targetRecipient := orDefault recipient? TREASURY_ADDRESS
    match env.getTransaction txHash with
    | none => (.txNotFound, st)
    | some tx =>
      match env.getTransactionReceipt txHash with
      | none => (.txNotConfirmed, st)
      | some receipt =>
        if receipt.status ≠ 1 then (.txNotConfirmed, st)
        else if tx.toField.map lowerStr ≠ some (lowerStr TREASURY_ADDRESS) then
          (.wrongDestination TREASURY_ADDRESS tx.toField, st)
        else
          let fundingAmount := tx.value
          let fee := fundingAmount * FEE_PERCENT / 100
          let netAmount := fundingAmount - fee
          if env.walletConfigured = false then (.walletNotConfigured, st)
          else
            match env.sendTransaction targetRecipient netAmount with
            | .error msg => (.serverError msg, st)
            | .ok distHash =>
              let grant : Grant :=
                { id := env.newId
                  recipient := lowerStr targetRecipient
                  grantor := lowerStr tx.fromField
                  reason := "E2E Test Grant"
                  grossAmount := fundingAmount
                  grossAmountFormatted := formatETH fundingAmount
                  fee := fee
                  feeFormatted := formatETH fee
                  netAmount := netAmount
                  netAmountFormatted := formatETH netAmount
                  fundingTxHash := txHash
                  distributionTxHash := distHash
                  status := "completed"
                  mock := false
                  createdAt := env.now }
              (.created grant, { st with grants := st.grants ++ [grant] })

/-! ## `GET /grants` (lines 249-270) -/

/-- The filter predicate applied by the listing endpoint: a truthy
`recipient` query keeps records with `g.recipient === recipient.toLowerCase()`
(lines 253-255), likewise for `grantor` (lines 256-258). -/
def matchesQuery (recipient? grantor? : Option String) (g : Grant) : Bool :=
  (match truthy recipient? with
   | some r => g.recipient == lowerStr r
   | none => true) &&
  (match truthy grantor? with
   | some q => g.grantor == lowerStr q
   | none => true)

/-- Descending-`createdAt` comparison used by `sort((a, b) =>
b.createdAt - a.createdAt)` (line 260): `a` may precede `b` iff
`b.createdAt ≤ a.createdAt`. -/
def byCreatedAtDesc (a b : Grant) : Prop := b.createdAt ≤ a.createdAt

instance : DecidableRel byCreatedAtDesc := fun a b => Nat.decLe b.createdAt a.createdAt

/-- The `GET /grants` handler: filter, stable sort by `createdAt`
descending, then truncate to `limit` when a truthy limit was given
(lines 262-264; `limit?` is the already-`parseInt`ed value of a truthy
`limit` query parameter). -/
def listGrants (st : ServerState) (recipient? grantor? : Option String)
    (limit? : Option Nat) : List Grant :=
  let results := st.grants.filter (matchesQuery recipient? grantor?)
  let sorted := results.insertionSort byCreatedAtDesc
  match limit? with
  | some n => sorted.take n
  | none => sorted

/-! ## `GET /stats` (lines 419-431) -/

/-- The `/stats` response.  `totalGranted` and `totalFees` are returned
already formatted through `formatETH` (lines 426-427). -/
structure StatsResponse where
  totalGrants : Nat
  totalGranted : String
  totalFees : String
  uniqueRecipients : Nat
  uniqueGrantors : Nat
deriving DecidableEq

/-- The `GET /stats` handler: `reduce` sums over all records, `new Set(...)`
for distinct recipients, and `grantors.size` — the number of entries in the
grantor-stats map — for `uniqueGrantors`. -/
def getStats (st : ServerState) : StatsResponse :=
  { totalGrants := st.grants.length
    totalGranted := formatETH (st.grants.foldl (fun sum g => sum + g.netAmount) 0)
    totalFees := formatETH (st.grants.foldl (fun sum g => sum + g.fee) 0)
    uniqueRecipients := (st.grants.map (fun g => g.recipient)).dedup.length
    uniqueGrantors := st.grantors.length }

/-! ## `GET /grantors/:address` (lines 286-308) -/

/-- The body of a successful `/grantors/:address` response.  In the
no-stats branch (line 294) the source returns the literal strings `'0'` and
`'0 ETH'` and omits `recentGrants`; `totalAmount` is modelled as `Nat` and
the absent `recentGrants` as `none`. -/
structure GrantorResponse where
  address : String
  totalGrants : Nat
  totalAmount : Nat
  totalAmountFormatted : String
  recentGrants : Option (List Grant)
deriving DecidableEq

/-- Outcome of `GET /grantors/:address`. -/
inductive GrantorResult where
  | invalidAddress
  | ok (r : GrantorResponse)
deriving DecidableEq

/-- Whether the grantor lookup succeeded (HTTP 200). -/
def GrantorResult.isOk : GrantorResult → Bool
  | .ok _ => true
  | _ => false

/-- The `GET /grantors/:address` handler: 400 on an invalid address; zero
stats (not 404) when the address has no stats entry; otherwise the stored
stats plus the grantor's ten most recent grants. -/
def getGrantor (env : Env) (st : ServerState) (address : String) : GrantorResult :=
  if env.isAddress address = false then .invalidAddress
  else
    match grantorsGet st.grantors (lowerStr address) with
    | none => .ok ⟨lowerStr address, 0, 0, "0 ETH", none⟩
    | some stats =>
      let grantorGrants :=
        (st.grants.filter (fun g => g.grantor == lowerStr address)).insertionSort
          byCreatedAtDesc
      .ok ⟨lowerStr address, stats.totalGrants, stats.totalAmount,
        formatETH stats.totalAmount, some (grantorGrants.take 10)⟩

/-! ## Whitelist gate (lines 82-116)

`fetchWhitelist` keeps a process-wide cache of lowercased addresses with a
5-minute TTL; `requireWhitelist` extracts a candidate address from the
request body and denies the request when it is absent or not allowed.  The
external HTTP fetch is modelled by a `FetchResult` oracle; the address
extraction `data.map(e => (e.address || e).toLowerCase())` is modelled on
the already-extracted address strings. -/

/-- Cache TTL in milliseconds (line 84). -/
def WHITELIST_CACHE_TTL : Nat := 5 * 60 * 1000

/-- The whitelist cache state: `none` before the first successful fetch. -/
structure WhitelistCache where
  cache : Option (List String)
  cacheTime : Nat
deriving DecidableEq

/-- Outcome of one attempt to fetch the external whitelist source. -/
inductive FetchResult where
  | ok (entries : List String)
  | failed
deriving DecidableEq

/-- `fetchWhitelist` (lines 86-102): answer from a fresh cache; otherwise
refresh, and on failure fall back to the previous cache if any, else the
empty set. -/
def fetchWhitelist (st : WhitelistCache) (now : Nat) (result : FetchResult) :
    List String × WhitelistCache :=
  let refresh : List String × WhitelistCache :=
    match result with
    | .ok entries =>
      let s := entries.map lowerStr
      (s, ⟨some s, now⟩)
    | .failed =>
      match st.cache with
      | some c => (c, st)
      | none => ([], st)
  match st.cache with
  | some c => if now - st.cacheTime < WHITELIST_CACHE_TTL then (c, st) else refresh
  | none => refresh

/-- The body fields consulted by `requireWhitelist` (line 106): the
configured primary field (`address` for `/grants`), then `creator`,
`participant`, `sender`, `from`, `address`, in that order. -/
structure WlBody where
  primary : Option String
  creator : Option String
  participant : Option String
  sender : Option String
  fromField : Option String
  address : Option String

/-- The `||` chain extracting the candidate address (line 106); falsy
(absent or empty) fields are skipped. -/
def extractAddr (b : WlBody) : Option String :=
  (truthy b.primary).orElse fun _ =>
    (truthy b.creator).orElse fun _ =>
      (truthy b.participant).orElse fun _ =>
        (truthy b.sender).orElse fun _ =>
          (truthy b.fromField).orElse fun _ => truthy b.address

/-- Decision of the whitelist middleware. -/
inductive WlDecision where
  | missingAddress
  | forbidden
  | allowed
deriving DecidableEq

/-- `requireWhitelist` (lines 104-116): 400 when no candidate address field
is present, 403 when the lowercased address is not in the allowed set,
otherwise pass through to the handler. -/
def requireWhitelist (b : WlBody) (st : WhitelistCache) (now : Nat)
    (result : FetchResult) : WlDecision × WhitelistCache :=
  match extractAddr b with
  | none => (.missingAddress, st)
  | some addr =>
    let p := fetchWhitelist st now result
    if p.1.contains (lowerStr addr) then (.allowed, p.2) else (.forbidden, p.2)

/-! ## Interleaving model of concurrent live-mode `/grants` requests

In the source the duplicate check (line 144) runs synchronously, but in live
mode the handler then suspends at `await getProvider().getTransaction`
(line 155), `getTransactionReceipt` (line 160) and `w.sendTransaction`
(line 192) before the record is inserted at line 220.  Node's event loop can
therefore interleave two requests between the check and the insert.  Each
live request is modelled as two atomic segments: `checking` (the duplicate
check, up to the first `await`) and `distributing` (the distribution attempt
and the insertion, after the last `await`); a scheduler picks which pending
request advances next. -/

/-- Progress of one in-flight live-mode request. -/
inductive ReqPhase where
  | checking
  | distributing
  | finished
deriving DecidableEq

/-- A pending live-mode `/grants` request: a verified funding amount (the
chain lookups are assumed to succeed) and its progress.  `rejected` records
that the duplicate check failed the request. -/
structure LiveReq where
  recipient : String
  txHash : String
  fundingAmount : Nat
  sender : String
  phase : ReqPhase
  rejected : Bool
deriving DecidableEq

/-- State of the service with a pool of in-flight live requests: the stored
grants, the number of distribution transfers attempted so far, and the
requests. -/
structure ConcState where
  grants : List Grant
  distributions : Nat
  reqs : List LiveReq
deriving DecidableEq

/-- The record inserted by an interleaved live request `r` (lines 202-218,
with the verified sender and a distribution hash left symbolic). -/
def concGrant (r : LiveReq) (idx : Nat) : Grant :=
  let fee := r.fundingAmount * FEE_PERCENT / 100
  let netAmount := r.fundingAmount - fee
  { id := "uuid-" ++ toString idx
    recipient := lowerStr r.recipient
    grantor := lowerStr r.sender
    reason := "Direct grant"
    grossAmount := r.fundingAmount
    grossAmountFormatted := formatETH r.fundingAmount
    fee := fee
    feeFormatted := formatETH fee
    netAmount := netAmount
    netAmountFormatted := formatETH netAmount
    fundingTxHash := r.txHash
    distributionTxHash := "0xdist-" ++ toString idx
    status := "completed"
    mock := false
    createdAt := 0 }

/-- Advance request `i` by one atomic segment: its duplicate check (line
144-147) or its distribution-and-insert tail (lines 192-229). -/
def concStep (cs : ConcState) (i : Nat) : ConcState :=
  match cs.reqs.get? i with
  | none => cs
  | some r =>
    match r.phase with
    | .checking =>
      if (findByFundingTx cs.grants r.txHash).isSome then
        { cs with reqs := cs.reqs.set i { r with phase := .finished, rejected := true } }
      else
        { cs with reqs := cs.reqs.set i { r with phase := .distributing } }
    | .distributing =>
      { grants := cs.grants ++ [concGrant r i]
        distributions := cs.distributions + 1
        reqs := cs.reqs.set i { r with phase := .finished } }
    | .finished => cs

/-- Run a schedule: a list of request indices, each naming the request that
advances next. -/
def concRun (cs : ConcState) (sched : List Nat) : ConcState :=
  sched.foldl concStep cs

/-- A fresh live request for funding transaction `h`. -/
def freshReq (recipient h sender : String) (amount : Nat) : LiveReq :=
  ⟨recipient, h, amount, sender, .checking, false⟩

/-- Number of stored records consuming funding transaction `h`
(case-insensitively). -/
def countHash (gs : List Grant) (h : String) : Nat :=
  (gs.filter (fun g => lowerStr g.fundingTxHash == lowerStr h)).length

instance : IsTotal Grant byCreatedAtDesc :=
  ⟨fun a b => Nat.le_total b.createdAt a.createdAt⟩

instance : IsTrans Grant byCreatedAtDesc :=
  ⟨fun _ _ _ hab hbc => Nat.le_trans hbc hab⟩

/-! ## Concrete fixtures used by witnesses and counterexamples -/

/-- A chain-less environment: no transactions resolve, the wallet is not
configured, every string passes the external address-validity check. -/
def sampleEnv : Env :=
  { getTransaction := fun _ => none
    getTransactionReceipt := fun _ => none
    isAddress := fun _ => true
    walletConfigured := false
    sendTransaction := fun _ _ => .error "wallet unavailable"
    newId := "uuid-0001"
    newMockDistHash := "aaaabbbb"
    now := 1000 }

/-- A live-chain environment: the lookup finds a confirmed `0.01` ETH
transfer into the treasury and outbound transfers succeed. -/
def chainEnv : Env :=
  { getTransaction := fun _ => some ⟨some TREASURY_ADDRESS, "0xSenderBB", 10 ^ 16⟩
    getTransactionReceipt := fun _ => some ⟨1⟩
    isAddress := fun _ => true
    walletConfigured := true
    sendTransaction := fun _ _ => .ok "0xdistCC"
    newId := "uuid-0002"
    newMockDistHash := "ccccdddd"
    now := 2000 }

/-- A mock-mode grant request body. -/
def sampleBody : GrantBody := ⟨some "0xRecipientAAA", none, none, some "0xAB", none⟩

/-- The state after submitting `sampleBody` in mock mode to the empty
service. -/
def sampleState1 : ServerState :=
  (processGrants sampleEnv ServerState.empty sampleBody true).2

/-- The record created by that first submission. -/
def sampleGrant1 : Grant :=
  mkGrant sampleEnv sampleBody true "0xRecipientAAA" "0xAB" mockSender (10 ^ 16)
    (10 ^ 16 * FEE_PERCENT / 100) (10 ^ 16 - 10 ^ 16 * FEE_PERCENT / 100)
    ("0xmock" ++ sampleEnv.newMockDistHash)

/-- An environment whose external address-validity check accepts exactly
`"0xGood"`. -/
def addrCheckEnv : Env :=
  { sampleEnv with isAddress := fun s => s == "0xGood" }

/-- Two in-flight live requests carrying the same funding hash `0xaa`. -/
def raceState : ConcState :=
  ⟨[], 0, [freshReq "0xRcpt" "0xaa" "0xSndr" (10 ^ 16),
           freshReq "0xRcpt" "0xaa" "0xSndr" (10 ^ 16)]⟩

/-- Submit the same body through `POST /grants` (mock mode) `n` times in
sequence, each request running to completion before the next starts. -/
def submitRepeatedly (envs : Nat → Env) (st : ServerState) (body : GrantBody) :
    Nat → ServerState
  | 0 => st
  | n + 1 => (processGrants (envs n) (submitRepeatedly envs st body n) body true).2

/-! ## Shape lemmas about the `/grants` handler -/

/-- `grantVerify` never produces a `created` value as its error. -/
theorem grantVerify_error_not_created {env : Env} {body : GrantBody} {m : Bool}
    {t : String} {e : GrantResult} (h : grantVerify env body m t = .error e) :
    e.isCreated = false := by
  unfold grantVerify at h
  repeat' split at h
  all_goals first
  | (cases h <;> rfl)
  | (injection h with h; subst h; rfl)

/-- `grantDistribute` never produces a `created` value as its error. -/
theorem grantDistribute_error_not_created {env : Env} {r : String} {n : Nat} {m : Bool}
    {e : GrantResult} (h : grantDistribute env r n m = .error e) :
    e.isCreated = false := by
  unfold grantDistribute at h
  repeat' split at h
  all_goals first
  | (cases h <;> rfl)
  | (injection h with h; subst h; rfl)

/-- Inversion of a successful `/grants` request: the handler reached the end
of the pipeline, so the body was structurally valid, the recipient address
valid, the funding hash fresh, verification and distribution succeeded, and
the response and new state are exactly the constructed record and its
insertion. -/
theorem processGrants_created {env : Env} {st : ServerState} {body : GrantBody}
    {m : Bool} {g : Grant} {st' : ServerState}
    (h : processGrants env st body m = (.created g, st')) :
    ∃ recipient txHash amt txFrom dist,
      truthy body.recipient = some recipient ∧
      truthy body.txHash = some txHash ∧
      env.isAddress recipient = true ∧
      findByFundingTx st.grants txHash = none ∧
      grantVerify env body m txHash = .ok (amt, txFrom) ∧
      grantDistribute env recipient (amt - amt * FEE_PERCENT / 100) m = .ok dist ∧
      g = mkGrant env body m recipient txHash txFrom amt (amt * FEE_PERCENT / 100)
            (amt - amt * FEE_PERCENT / 100) dist ∧
      st' = insertGrant st g amt := by
  unfold processGrants at h
  rcases hr : truthy body.recipient with _ | recipient <;> rw [hr] at h
  · cases h
  rcases ht : truthy body.txHash with _ | txHash <;> rw [ht] at h
  · cases h
  dsimp only at h
  by_cases ha : env.isAddress recipient = false
  · rw [if_pos ha] at h; cases h
  rw [if_neg ha] at h
  rcases hf : findByFundingTx st.grants txHash with _ | ge <;> rw [hf] at h
  swap
  · cases h
  rcases hv : grantVerify env body m txHash with e | p <;> rw [hv] at h
  · exfalso
    have hnc := grantVerify_error_not_created hv
    have h1 := congrArg Prod.fst h
    simp only at h1
    rw [h1] at hnc
    simp [GrantResult.isCreated] at hnc
  obtain ⟨amt, txFrom⟩ := p
  dsimp only at h
  rcases hd : grantDistribute env recipient (amt - amt * FEE_PERCENT / 100) m
      with e | dist <;> rw [hd] at h
  · exfalso
    have hnc := grantDistribute_error_not_created hd
    have h1 := congrArg Prod.fst h
    simp only at h1
    rw [h1] at hnc
    simp [GrantResult.isCreated] at hnc
  rw [Prod.mk.injEq] at h
  obtain ⟨h1, h2⟩ := h
  injection h1 with h1
  subst h1
  subst h2
  exact ⟨recipient, txHash, amt, txFrom, dist, rfl, rfl, by simpa using ha, hf, hv, hd,
    rfl, rfl⟩

/-- Every non-`created` outcome of the `/grants` handler leaves the state
untouched. -/
theorem processGrants_state_shape (env : Env) (st : ServerState) (body : GrantBody)
    (m : Bool) :
    (processGrants env st body m).2 = st ∨
    (processGrants env st body m).1.isCreated = true := by
  unfold processGrants
  rcases truthy body.recipient with _ | recipient
  · left; rfl
  rcases truthy body.txHash with _ | txHash
  · left; rfl
  dsimp only
  split
  · left; rfl
  split
  · left; rfl
  split
  · left; rfl
  split
  · left; rfl
  right; rfl

/-! ## C4 — failed requests write nothing -/

/-- C4: for every `POST /grants` request that fails at any step before
distribution succeeds (missing field, invalid recipient address, duplicate
funding transaction, transaction not found, transaction not confirmed, wrong
destination, wallet not configured, or distribution submission error — i.e.
every non-`created` outcome), the grant ledger and the grantor-stats map are
left completely unchanged. -/
theorem grants_failure_leaves_state_unchanged (env : Env) (st : ServerState)
    (body : GrantBody) (isMock : Bool)
    (h : (processGrants env st body isMock).1.isCreated = false) :
    (processGrants env st body isMock).2 = st := by
  rcases processGrants_state_shape env st body isMock with h2 | h2
  · exact h2
  · rw [h2] at h; cases h

/-- Witness for C4: a request with a missing recipient fails and the state
(the ledger and the stats map) is exactly the initial one. -/
theorem grants_failure_leaves_state_unchanged_witness :
    (processGrants sampleEnv sampleState1 ⟨none, none, none, some "0xAB", none⟩
        true).1.isCreated = false ∧
    (processGrants sampleEnv sampleState1 ⟨none, none, none, some "0xAB", none⟩
        true).2 = sampleState1 :=
  ⟨by decide,
   grants_failure_leaves_state_unchanged sampleEnv sampleState1
     ⟨none, none, none, some "0xAB", none⟩ true (by decide)⟩

/-! ## C3 — fee split arithmetic -/

/-- C3: for every grant request that results in a stored record — via
`POST /grants` in either mode or via `POST /test/e2e` — the stored record
satisfies `fee = grossAmount * 5 / 100` (exact integer floor division),
`netAmount = grossAmount - fee`, hence `fee + netAmount = grossAmount` and
`fee ≤ grossAmount`, and the record is in the resulting ledger. -/
theorem grant_fee_split_correct (env : Env) (st : ServerState) (body : GrantBody)
    (isMock : Bool) (tx? rec? : Option String) :
    (∀ g st', processGrants env st body isMock = (.created g, st') →
      g.fee = g.grossAmount * FEE_PERCENT / 100 ∧
      g.netAmount = g.grossAmount - g.fee ∧
      g.fee + g.netAmount = g.grossAmount ∧
      g.fee ≤ g.grossAmount ∧
      g ∈ st'.grants) ∧
    (∀ g st', processE2E env st tx? rec? = (.created g, st') →
      g.fee = g.grossAmount * FEE_PERCENT / 100 ∧
      g.netAmount = g.grossAmount - g.fee ∧
      g.fee + g.netAmount = g.grossAmount ∧
      g.fee ≤ g.grossAmount ∧
      g ∈ st'.grants) := by
  have feeLe : ∀ amt : Nat, amt * FEE_PERCENT / 100 ≤ amt := by
    intro amt
    calc amt * FEE_PERCENT / 100 ≤ amt * 100 / 100 :=
          Nat.div_le_div_right (Nat.mul_le_mul_left amt (by norm_num [FEE_PERCENT]))
    _ = amt := Nat.mul_div_cancel amt (by norm_num)
  constructor
  · intro g st' h
    obtain ⟨recipient, txHash, amt, txFrom, dist, -, -, -, -, -, -, hg, hst⟩ :=
      processGrants_created h
    subst hg
    refine ⟨rfl, rfl, ?_, feeLe amt, ?_⟩
    · exact Nat.add_sub_cancel' (feeLe amt)
    · rw [hst]
      exact List.mem_append_right _ (List.mem_singleton.mpr rfl)
  · intro g st' h
    unfold processE2E at h
    dsimp only at h
    repeat' split at h
    all_goals
      (cases h <;>
        exact ⟨rfl, rfl, Nat.add_sub_cancel' (feeLe _), feeLe _,
          List.mem_append_right _ (List.mem_singleton.mpr rfl)⟩)

/-- Witness for C3: a mock `/grants` submission of `0.01` ETH and a live
e2e run both produce records with the 5% fee split. -/
theorem grant_fee_split_correct_witness :
    (sampleGrant1.fee = sampleGrant1.grossAmount * FEE_PERCENT / 100 ∧
      sampleGrant1.netAmount = sampleGrant1.grossAmount - sampleGrant1.fee ∧
      sampleGrant1.fee + sampleGrant1.netAmount = sampleGrant1.grossAmount ∧
      sampleGrant1.fee ≤ sampleGrant1.grossAmount ∧
      sampleGrant1 ∈ sampleState1.grants) ∧
    (∀ g st', processE2E chainEnv ServerState.empty (some "0xE2E") none =
        (.created g, st') →
      g.fee = g.grossAmount * FEE_PERCENT / 100 ∧
      g.netAmount = g.grossAmount - g.fee ∧
      g.fee + g.netAmount = g.grossAmount ∧
      g.fee ≤ g.grossAmount ∧
      g ∈ st'.grants) :=
  ⟨(grant_fee_split_correct sampleEnv ServerState.empty sampleBody true none none).1
      sampleGrant1 sampleState1 (by decide),
   (grant_fee_split_correct chainEnv ServerState.empty sampleBody true
      (some "0xE2E") none).2⟩

/-! ## C1 — duplicate funding transactions -/

/-- If the first list contributes no hit, `find?` over an append searches
the second list. -/
theorem find?_append_none {α : Type} {p : α → Bool} {l1 : List α}
    (h : l1.find? p = none) (l2 : List α) :
    (l1 ++ l2).find? p = l2.find? p := by
  rw [List.find?_append, h, Option.none_or]

/-- C1 counterexample: the duplicate check runs only after structural
validation, so a request whose `txHash` matches a stored record
(case-insensitively) but whose `recipient` is missing fails with the
missing-field error, not with `DuplicateFundingTransaction`. -/
theorem grants_duplicate_before_validation_cex :
    (findByFundingTx sampleState1.grants "0xab").isSome = true ∧
    (processGrants sampleEnv sampleState1 ⟨none, none, none, some "0xab", none⟩
        false).1 = GrantResult.missingField ∧
    (processGrants sampleEnv sampleState1 ⟨none, none, none, some "0xab", none⟩
        false).1 ≠ GrantResult.duplicateTx sampleGrant1.id := by decide

/-- C1 (amended): after a successful submission, every second submission
that passes structural validation (recipient present and valid, txHash
present) and reuses the same funding hash — in any character case — fails
with `DuplicateFundingTransaction` carrying the first record's id, with the
state unchanged; the ledger holds exactly one more record consuming that
hash than before the first submission, and it held none before. -/
theorem grants_second_submission_duplicate
    (env1 env2 : Env) (st st1 : ServerState) (b1 b2 : GrantBody) (m1 m2 : Bool)
    (g1 : Grant) (h1 h2 r2 : String)
    (hfirst : processGrants env1 st b1 m1 = (.created g1, st1))
    (ht1 : truthy b1.txHash = some h1)
    (hr2 : truthy b2.recipient = some r2)
    (ha2 : env2.isAddress r2 = true)
    (ht2 : truthy b2.txHash = some h2)
    (hcase : lowerStr h2 = lowerStr h1) :
    processGrants env2 st1 b2 m2 = (.duplicateTx g1.id, st1) ∧
    countHash st1.grants h1 = countHash st.grants h1 + 1 ∧
    countHash st.grants h1 = 0 := by
  obtain ⟨r1, tx1, amt, txFrom, dist, hr1, ht1', ha1, hnone, hver, hdist, hg, hst⟩ :=
    processGrants_created hfirst
  rw [ht1] at ht1'
  injection ht1' with htx1
  subst htx1
  have hgtx : g1.fundingTxHash = h1 := by rw [hg]; rfl
  have hsg : st1.grants = st.grants ++ [g1] := by rw [hst]; rfl
  have hnone2 :
      st.grants.find? (fun g => lowerStr g.fundingTxHash == lowerStr h2) = none := by
    rw [List.find?_eq_none]
    intro a ha
    rw [hcase]
    exact List.find?_eq_none.mp hnone a ha
  have hfind : findByFundingTx st1.grants h2 = some g1 := by
    unfold findByFundingTx
    rw [hsg, find?_append_none hnone2]
    apply List.find?_cons_of_pos
    rw [hgtx, hcase]
    exact beq_self_eq_true _
  have hc0 : countHash st.grants h1 = 0 := by
    unfold countHash
    rw [List.length_eq_zero, List.filter_eq_nil]
    exact List.find?_eq_none.mp hnone
  refine ⟨?_, ?_, hc0⟩
  · unfold processGrants
    rw [hr2, ht2]
    dsimp only
    rw [ha2, if_neg (by decide), hfind]
  · unfold countHash
    rw [hsg, List.filter_append]
    have : [g1].filter (fun g => lowerStr g.fundingTxHash == lowerStr h1) = [g1] := by
      simp [List.filter, hgtx]
    rw [this, List.length_append]
    rfl

/-- Witness for C1: submitting `sampleBody` twice in sequence — the second
call fails with the first record's id, nothing changes, and exactly one
record consumes the hash. -/
theorem grants_second_submission_duplicate_witness :
    processGrants sampleEnv sampleState1 sampleBody true =
      (.duplicateTx sampleGrant1.id, sampleState1) ∧
    countHash sampleState1.grants "0xAB" =
      countHash ServerState.empty.grants "0xAB" + 1 ∧
    countHash ServerState.empty.grants "0xAB" = 0 :=
  grants_second_submission_duplicate sampleEnv sampleEnv ServerState.empty sampleState1
    sampleBody sampleBody true true sampleGrant1 "0xAB" "0xAB" "0xRecipientAAA"
    (by decide) (by decide) (by decide) (by decide) (by decide) (by decide)

/-! ## C2 — global uniqueness of `fundingTxHash` -/

/-- C2 counterexample: `POST /test/e2e` performs no duplicate check, so
running it with a funding hash already consumed by a `/grants` record (here
in a different character case) stores a second record for the same funding
transaction: the lowercased funding hashes of the resulting ledger are not
pairwise distinct, and two records consume the hash. -/
theorem e2e_breaks_funding_hash_uniqueness :
    ¬ ((processE2E chainEnv sampleState1 (some "0xab") none).2.grants.map
        (fun g => lowerStr g.fundingTxHash)).Nodup ∧
    countHash (processE2E chainEnv sampleState1 (some "0xab") none).2.grants
      "0xAB" = 2 := by decide

/-- C2 (amended): the `/grants` endpoint alone does preserve global
uniqueness — if no two stored records share a (case-insensitive) funding
hash, the same holds after any `POST /grants` request. -/
theorem grants_funding_hash_unique_preserved (env : Env) (st : ServerState)
    (body : GrantBody) (isMock : Bool)
    (h : (st.grants.map (fun g => lowerStr g.fundingTxHash)).Nodup) :
    ((processGrants env st body isMock).2.grants.map
      (fun g => lowerStr g.fundingTxHash)).Nodup := by
  rcases hres : processGrants env st body isMock with ⟨res, st'⟩
  cases res with
  | created g =>
    obtain ⟨r, txh, amt, txFrom, dist, hr, ht, ha, hnone, hver, hdist, hg, hst⟩ :=
      processGrants_created hres
    dsimp only
    rw [hst]
    show ((st.grants ++ [g]).map (fun g => lowerStr g.fundingTxHash)).Nodup
    rw [List.map_append, List.nodup_append]
    refine ⟨h, List.nodup_singleton _, ?_⟩
    intro a ha1 ha2
    obtain ⟨g', hg', hag⟩ := List.mem_map.mp ha1
    have ha2' : a = lowerStr g.fundingTxHash := by simpa using ha2
    have hgtx : g.fundingTxHash = txh := by rw [hg]; rfl
    have hne := List.find?_eq_none.mp hnone g' hg'
    simp only [beq_iff_eq] at hne
    exact hne (by rw [hag, ha2', hgtx])
  | missingField =>
    have := processGrants_state_shape env st body isMock
    rw [hres] at this
    rcases this with h2 | h2
    · rw [h2]; exact h
    · cases h2
  | invalidRecipient =>
    have := processGrants_state_shape env st body isMock
    rw [hres] at this
    rcases this with h2 | h2
    · rw [h2]; exact h
    · cases h2
  | duplicateTx i =>
    have := processGrants_state_shape env st body isMock
    rw [hres] at this
    rcases this with h2 | h2
    · rw [h2]; exact h
    · cases h2
  | txNotFound =>
    have := processGrants_state_shape env st body isMock
    rw [hres] at this
    rcases this with h2 | h2
    · rw [h2]; exact h
    · cases h2
  | txNotConfirmed =>
    have := processGrants_state_shape env st body isMock
    rw [hres] at this
    rcases this with h2 | h2
    · rw [h2]; exact h
    · cases h2
  | wrongDestination e g =>
    have := processGrants_state_shape env st body isMock
    rw [hres] at this
    rcases this with h2 | h2
    · rw [h2]; exact h
    · cases h2
  | walletNotConfigured =>
    have := processGrants_state_shape env st body isMock
    rw [hres] at this
    rcases this with h2 | h2
    · rw [h2]; exact h
    · cases h2
  | serverError msg =>
    have := processGrants_state_shape env st body isMock
    rw [hres] at this
    rcases this with h2 | h2
    · rw [h2]; exact h
    · cases h2

/-- Witness for C2 (amended): a duplicate resubmission against a ledger with
pairwise-distinct hashes keeps the hashes pairwise distinct. -/
theorem grants_funding_hash_unique_preserved_witness :
    ((processGrants sampleEnv sampleState1 sampleBody true).2.grants.map
      (fun g => lowerStr g.fundingTxHash)).Nodup :=
  grants_funding_hash_unique_preserved sampleEnv sampleState1 sampleBody true
    (by decide)

/-! ## C6 — aggregate statistics -/

/-- Folding `(sum, g) ↦ sum + f g` over a list adds the sum of `f`. -/
theorem foldl_add_map (f : Grant → Nat) (l : List Grant) (a : Nat) :
    l.foldl (fun sum g => sum + f g) a = a + (l.map f).sum := by
  induction l generalizing a with
  | nil => simp
  | cons g gs ih => simp [ih, Nat.add_assoc]

/-- C6 counterexample: after a single `/test/e2e` grant from a fresh
grantor, `/stats` reports `uniqueGrantors = 0` (it returns the size of the
grantor-stats map, which `/test/e2e` never updates) although one distinct
grantor address occurs among the stored records. -/
theorem stats_unique_grantors_undercounts :
    (getStats (processE2E chainEnv ServerState.empty (some "0xE2ETest")
        none).2).uniqueGrantors = 0 ∧
    ((processE2E chainEnv ServerState.empty (some "0xE2ETest") none).2.grants.map
      (fun g => g.grantor)).toFinset.card = 1 := by decide

/-- C6 (amended): `/stats` returns `totalGrants` equal to the number of
stored records, `totalGranted` and `totalFees` equal to the
`formatETH`-rendered sums of `netAmount` and `fee` over all stored records,
`uniqueRecipients` equal to the number of distinct recipient addresses, and
`uniqueGrantors` equal to the number of entries of the grantor-stats map —
which can undercount the distinct grantor addresses of the records, since
`/test/e2e` inserts records without updating that map. -/
theorem stats_aggregation_formula (st : ServerState) :
    getStats st =
      { totalGrants := st.grants.length
        totalGranted := formatETH ((st.grants.map (fun g => g.netAmount)).sum)
        totalFees := formatETH ((st.grants.map (fun g => g.fee)).sum)
        uniqueRecipients := (st.grants.map (fun g => g.recipient)).toFinset.card
        uniqueGrantors := st.grantors.length } := by
  simp [getStats, foldl_add_map, List.card_toFinset]

/-! ## C7 — listing: filter, order, limit -/

/-- C7: on a ledger whose stored addresses are normalized to lowercase (as
every record the handlers store is), `GET /grants` returns records sorted by
`createdAt` descending; every returned record is a stored record matching
the (case-insensitive) `recipient` and `grantor` filters; a `limit`
truncates the output to at most `limit` records; and without a limit the
output is a permutation of exactly the stored records matching the
filters. -/
theorem list_grants_sorted_filtered_limited (st : ServerState)
    (rq gq : Option String) (lim : Option Nat)
    (hnorm : ∀ g ∈ st.grants,
      lowerStr g.recipient = g.recipient ∧ lowerStr g.grantor = g.grantor) :
    List.Sorted byCreatedAtDesc (listGrants st rq gq lim) ∧
    (∀ g ∈ listGrants st rq gq lim, g ∈ st.grants ∧
      (∀ r, truthy rq = some r → lowerStr g.recipient = lowerStr r) ∧
      (∀ q, truthy gq = some q → lowerStr g.grantor = lowerStr q)) ∧
    (∀ n, lim = some n → (listGrants st rq gq lim).length ≤ n) ∧
    (lim = none →
      (listGrants st rq gq lim).Perm (st.grants.filter (matchesQuery rq gq))) := by
  have hmq : ∀ g, g ∈ st.grants → matchesQuery rq gq g = true →
      (∀ r, truthy rq = some r → lowerStr g.recipient = lowerStr r) ∧
      (∀ q, truthy gq = some q → lowerStr g.grantor = lowerStr q) := by
    intro g hgmem hm
    unfold matchesQuery at hm
    rw [Bool.and_eq_true] at hm
    obtain ⟨hm1, hm2⟩ := hm
    constructor
    · intro r hr
      rw [hr] at hm1
      dsimp only at hm1
      rw [beq_iff_eq] at hm1
      rw [(hnorm g hgmem).1, hm1]
    · intro q hq
      rw [hq] at hm2
      dsimp only at hm2
      rw [beq_iff_eq] at hm2
      rw [(hnorm g hgmem).2, hm2]
  have hsorted : List.Sorted byCreatedAtDesc
      ((st.grants.filter (matchesQuery rq gq)).insertionSort byCreatedAtDesc) :=
    List.sorted_insertionSort byCreatedAtDesc _
  have hperm : ((st.grants.filter (matchesQuery rq gq)).insertionSort
      byCreatedAtDesc).Perm (st.grants.filter (matchesQuery rq gq)) :=
    List.perm_insertionSort byCreatedAtDesc _
  refine ⟨?_, ?_, ?_, ?_⟩
  · unfold listGrants
    cases lim with
    | none => exact hsorted
    | some n => exact List.Pairwise.sublist (List.take_sublist n _) hsorted
  · intro g hg
    have hgs : g ∈ (st.grants.filter (matchesQuery rq gq)).insertionSort
        byCreatedAtDesc := by
      unfold listGrants at hg
      cases lim with
      | none => exact hg
      | some n => exact List.mem_of_mem_take hg
    have hgf := hperm.mem_iff.mp hgs
    have hgmem := List.mem_of_mem_filter hgf
    have hm := List.of_mem_filter hgf
    exact ⟨hgmem, hmq g hgmem hm⟩
  · intro n hn
    subst hn
    unfold listGrants
    exact List.length_take_le n _
  · intro hn
    subst hn
    exact hperm

/-- Witness for C7: listing a two-record ledger with an upper-case
recipient filter and a limit. -/
theorem list_grants_sorted_filtered_limited_witness :
    List.Sorted byCreatedAtDesc
      (listGrants sampleState1 (some "0xRECIPIENTAAA") none (some 5)) ∧
    (∀ g ∈ listGrants sampleState1 (some "0xRECIPIENTAAA") none (some 5),
      g ∈ sampleState1.grants ∧
      (∀ r, truthy (some "0xRECIPIENTAAA") = some r →
        lowerStr g.recipient = lowerStr r) ∧
      (∀ q, truthy (none : Option String) = some q →
        lowerStr g.grantor = lowerStr q)) ∧
    (∀ n, (some 5 : Option Nat) = some n →
      (listGrants sampleState1 (some "0xRECIPIENTAAA") none (some 5)).length ≤ n) ∧
    ((some 5 : Option Nat) = none →
      (listGrants sampleState1 (some "0xRECIPIENTAAA") none (some 5)).Perm
        (sampleState1.grants.filter (matchesQuery (some "0xRECIPIENTAAA") none))) :=
  list_grants_sorted_filtered_limited sampleState1 (some "0xRECIPIENTAAA") none
    (some 5) (by decide)

/-! ## C10 — grantor lookup of an unknown address -/

/-- C10: `GET /grantors/:address` fails only on a syntactically invalid
address (HTTP 400); for every valid address it succeeds (HTTP 200), and when
the address has no stats entry it returns the zero-stats body
(`totalGrants = 0`, `totalAmount = 0`, formatted `"0 ETH"`) rather than a
not-found error. -/
theorem grantor_lookup_unknown_zero (env : Env) (st : ServerState)
    (address : String) :
    (env.isAddress address = false → getGrantor env st address = .invalidAddress) ∧
    (env.isAddress address = true → (getGrantor env st address).isOk = true) ∧
    (env.isAddress address = true →
      grantorsGet st.grantors (lowerStr address) = none →
      getGrantor env st address = .ok ⟨lowerStr address, 0, 0, "0 ETH", none⟩) := by
  refine ⟨?_, ?_, ?_⟩
  · intro h
    unfold getGrantor
    rw [h, if_pos rfl]
  · intro h
    unfold getGrantor
    rw [h, if_neg (by decide)]
    split <;> rfl
  · intro h hnone
    unfold getGrantor
    rw [h, if_neg (by decide), hnone]

/-- Witness for C10: an invalid address is rejected; a valid address with no
stored stats succeeds with the zero-stats body. -/
theorem grantor_lookup_unknown_zero_witness :
    getGrantor addrCheckEnv ServerState.empty "bogus" = .invalidAddress ∧
    (getGrantor addrCheckEnv ServerState.empty "0xGood").isOk = true ∧
    getGrantor addrCheckEnv ServerState.empty "0xGood" =
      .ok ⟨lowerStr "0xGood", 0, 0, "0 ETH", none⟩ :=
  ⟨(grantor_lookup_unknown_zero addrCheckEnv ServerState.empty "bogus").1 (by decide),
   (grantor_lookup_unknown_zero addrCheckEnv ServerState.empty "0xGood").2.1 (by decide),
   (grantor_lookup_unknown_zero addrCheckEnv ServerState.empty "0xGood").2.2
     (by decide) (by decide)⟩

/-! ## C8 — whitelist gate fallback and denial -/

/-- C8: if the whitelist fetch fails and a previous cache exists, the gate
answers from that cache (whether it is fresh or stale); if the fetch fails
with no cache, the allowed set is empty and any request carrying an address
is denied; a request without any candidate address field fails with the
missing-address (400) error; and a request whose extracted address is not in
the allowed set fails with the forbidden (403) error. -/
theorem whitelist_gate_fallback_denial (b : WlBody) (st : WhitelistCache)
    (now : Nat) (fr : FetchResult) :
    (∀ c, st.cache = some c → fetchWhitelist st now .failed = (c, st)) ∧
    (st.cache = none → fetchWhitelist st now .failed = ([], st)) ∧
    (st.cache = none → ∀ a, extractAddr b = some a →
      (requireWhitelist b st now .failed).1 = .forbidden) ∧
    (extractAddr b = none → requireWhitelist b st now fr = (.missingAddress, st)) ∧
    (∀ a, extractAddr b = some a →
      (fetchWhitelist st now fr).1.contains (lowerStr a) = false →
      (requireWhitelist b st now fr).1 = .forbidden) := by
  refine ⟨?_, ?_, ?_, ?_, ?_⟩
  · intro c hc
    unfold fetchWhitelist
    rw [hc]
    dsimp only
    split <;> rfl
  · intro hc
    unfold fetchWhitelist
    rw [hc]
  · intro hc a ha
    have hempty : fetchWhitelist st now .failed = ([], st) := by
      unfold fetchWhitelist
      rw [hc]
    unfold requireWhitelist
    rw [ha, hempty]
    rfl
  · intro ha
    unfold requireWhitelist
    rw [ha]
  · intro a ha hcon
    unfold requireWhitelist
    rw [ha]
    dsimp only
    rw [hcon]
    rfl

/-- Witness for C8: a stale cache answers a failed refresh; first-failure
with no cache denies; a missing address field 400s; a non-member 403s. -/
theorem whitelist_gate_fallback_denial_witness :
    fetchWhitelist ⟨some ["0xwl"], 0⟩ (10 ^ 9) .failed =
      (["0xwl"], ⟨some ["0xwl"], 0⟩) ∧
    fetchWhitelist ⟨none, 0⟩ 0 .failed = ([], ⟨none, 0⟩) ∧
    (requireWhitelist ⟨some "0xWL", none, none, none, none, none⟩ ⟨none, 0⟩ 0
      .failed).1 = .forbidden ∧
    requireWhitelist ⟨none, none, none, none, none, none⟩ ⟨none, 0⟩ 0
      (.ok ["0xwl"]) = (.missingAddress, ⟨none, 0⟩) ∧
    (requireWhitelist ⟨some "0xEVIL", none, none, none, none, none⟩
      ⟨some ["0xwl"], 0⟩ 0 .failed).1 = .forbidden :=
  ⟨(whitelist_gate_fallback_denial ⟨some "0xWL", none, none, none, none, none⟩
      ⟨some ["0xwl"], 0⟩ (10 ^ 9) .failed).1 ["0xwl"] rfl,
   (whitelist_gate_fallback_denial ⟨some "0xWL", none, none, none, none, none⟩
      ⟨none, 0⟩ 0 .failed).2.1 rfl,
   (whitelist_gate_fallback_denial ⟨some "0xWL", none, none, none, none, none⟩
      ⟨none, 0⟩ 0 .failed).2.2.1 rfl "0xWL" (by decide),
   (whitelist_gate_fallback_denial ⟨none, none, none, none, none, none⟩
      ⟨none, 0⟩ 0 (.ok ["0xwl"])).2.2.2.1 (by decide),
   (whitelist_gate_fallback_denial ⟨some "0xEVIL", none, none, none, none, none⟩
      ⟨some ["0xwl"], 0⟩ 0 .failed).2.2.2.2 "0xEVIL" (by decide) (by decide)⟩

/-! ## C9 — identical simultaneous submissions -/

/-- C9 counterexample: with the schedule that interleaves both duplicate
checks before either insert — possible because the handler suspends at the
chain and wallet `await`s between the check (line 144) and the insert
(line 220) — both requests pass the check, both attempt a distribution, and
two records consuming the same funding hash are stored. -/
theorem concurrent_same_hash_double_record :
    countHash (concRun raceState [0, 1, 0, 1]).grants "0xaa" = 2 ∧
    (concRun raceState [0, 1, 0, 1]).distributions = 2 := by decide

/-- A structurally valid mock submission against a ledger without the hash
creates a record consuming the hash. -/
theorem mock_submit_creates (env : Env) (st : ServerState) (body : GrantBody)
    (r h : String)
    (hr : truthy body.recipient = some r) (ha : env.isAddress r = true)
    (ht : truthy body.txHash = some h) (hamt : truthy body.amount = none)
    (hnone : findByFundingTx st.grants h = none) :
    ∃ g, processGrants env st body true = (.created g, insertGrant st g (10 ^ 16)) ∧
      g.fundingTxHash = h := by
  have hver : grantVerify env body true h =
      .ok (10 ^ 16, orDefault body.grantor mockSender) := by
    unfold grantVerify
    rw [if_neg (by decide), hamt]
  refine ⟨mkGrant env body true r h (orDefault body.grantor mockSender) (10 ^ 16)
    (10 ^ 16 * FEE_PERCENT / 100) (10 ^ 16 - 10 ^ 16 * FEE_PERCENT / 100)
    ("0xmock" ++ env.newMockDistHash), ?_, rfl⟩
  unfold processGrants
  rw [hr, ht]
  dsimp only
  rw [ha, if_neg (by decide), hnone, hver]
  rfl

/-- A structurally valid submission against a ledger already holding the
hash is rejected by the duplicate check and leaves the state unchanged. -/
theorem dup_submit_unchanged (env : Env) (st : ServerState) (body : GrantBody)
    (m : Bool) (r h : String) (g : Grant)
    (hr : truthy body.recipient = some r) (ha : env.isAddress r = true)
    (ht : truthy body.txHash = some h)
    (hsome : findByFundingTx st.grants h = some g) :
    processGrants env st body m = (.duplicateTx g.id, st) := by
  unfold processGrants
  rw [hr, ht]
  dsimp only
  rw [ha, if_neg (by decide), hsome]

/-- C9 (amended): when the identical submissions are serialized — each
request running to completion before the next starts, as mock-mode requests
do since they never suspend between the duplicate check and the insert —
any number `n ≥ 1` of submissions with the same funding hash stores exactly
one record consuming that hash.  (The interleaved live-mode schedule of the
counterexample stores one record and attempts one distribution per
request.) -/
theorem serialized_same_hash_single_record (envs : Nat → Env) (st : ServerState)
    (body : GrantBody) (r h : String) (n : Nat)
    (hr : truthy body.recipient = some r)
    (ha : ∀ k, (envs k).isAddress r = true)
    (ht : truthy body.txHash = some h)
    (hamt : truthy body.amount = none)
    (hnone : findByFundingTx st.grants h = none)
    (hn : 1 ≤ n) :
    countHash (submitRepeatedly envs st body n).grants h = 1 := by
  obtain ⟨g1, hstep, hgtx⟩ :=
    mock_submit_creates (envs 0) st body r h hr (ha 0) ht hamt hnone
  have hS1 : submitRepeatedly envs st body 1 = insertGrant st g1 (10 ^ 16) := by
    show (processGrants (envs 0) st body true).2 = _
    rw [hstep]
  have hfind1 : findByFundingTx (insertGrant st g1 (10 ^ 16)).grants h = some g1 := by
    show ((st.grants ++ [g1]).find? (fun g => lowerStr g.fundingTxHash == lowerStr h))
      = some g1
    have hnone2 : st.grants.find?
        (fun g => lowerStr g.fundingTxHash == lowerStr h) = none := hnone
    rw [find?_append_none hnone2]
    apply List.find?_cons_of_pos
    rw [hgtx]
    exact beq_self_eq_true _
  have hstable : ∀ m, 1 ≤ m → submitRepeatedly envs st body m =
      insertGrant st g1 (10 ^ 16) := by
    intro m hm
    induction m with
    | zero => omega
    | succ k ih =>
      rcases Nat.eq_or_lt_of_le hm with h1 | h1
      · rw [← h1]
        exact hS1
      · have hk : 1 ≤ k := by omega
        show (processGrants (envs k) (submitRepeatedly envs st body k) body true).2 = _
        rw [ih hk, dup_submit_unchanged (envs k) _ body true r h g1 hr (ha k) ht hfind1]
  rw [hstable n hn]
  show countHash (st.grants ++ [g1]) h = 1
  unfold countHash
  rw [List.filter_append]
  have h0 : st.grants.filter (fun g => lowerStr g.fundingTxHash == lowerStr h) = [] := by
    rw [List.filter_eq_nil]
    exact List.find?_eq_none.mp hnone
  have h1 : [g1].filter (fun g => lowerStr g.fundingTxHash == lowerStr h) = [g1] := by
    simp [List.filter, hgtx]
  rw [h0, h1]
  rfl

/-- Witness for C9 (amended): three serialized submissions of `sampleBody`
yield exactly one record consuming its funding hash. -/
theorem serialized_same_hash_single_record_witness :
    countHash (submitRepeatedly (fun _ => sampleEnv) ServerState.empty sampleBody 3).grants
      "0xAB" = 1 :=
  serialized_same_hash_single_record (fun _ => sampleEnv) ServerState.empty sampleBody
    "0xRecipientAAA" "0xAB" 3 (by decide) (fun _ => rfl) (by decide) (by decide)
    (by decide) (by decide)

/-! ## C5 — formatter / parser round trip -/

/-- The rendering of a digit below 10 parses back to itself. -/
theorem digitVal_digitChar {d : Nat} (hd : d < 10) :
    digitVal (digitChar d) = some d := by
  interval_cases d <;> decide

/-- Digit characters are not spaces, dots, or trim whitespace. -/
theorem digitChar_props {d : Nat} (hd : d < 10) :
    digitChar d ≠ ' ' ∧ digitChar d ≠ '.' ∧ isTrimSpace (digitChar d) = false := by
  interval_cases d <;> decide

/-- Parsing distributes over list append (continuing with the accumulated
value). -/
theorem parseDigitsAux_append (xs ys : List Char) (acc : Nat) :
    parseDigitsAux (xs ++ ys) acc =
      (parseDigitsAux xs acc).bind (fun v => parseDigitsAux ys v) := by
  induction xs generalizing acc with
  | nil => rfl
  | cons c cs ih =>
    rw [List.cons_append]
    cases hdv : digitVal c with
    | none =>
      have heq : ∀ (l : List Char) (a : Nat), parseDigitsAux (c :: l) a = none := by
        intro l a
        unfold parseDigitsAux
        rw [hdv]
      rw [heq, heq]
      rfl
    | some d =>
      have heq : ∀ (l : List Char) (a : Nat),
          parseDigitsAux (c :: l) a = parseDigitsAux l (a * 10 + d) := by
        intro l a
        conv_lhs => unfold parseDigitsAux
        rw [hdv]
      rw [heq, heq]
      exact ih (acc * 10 + d)

/-- Parsing the rendered digits of `n` appends `n` to the accumulator in
base `10 ^ length`. -/
theorem natToDigitsAux_parse (fuel : Nat) : ∀ n acc, n < fuel →
    parseDigitsAux (natToDigitsAux fuel n) acc =
      some (acc * 10 ^ (natToDigitsAux fuel n).length + n) := by
  induction fuel with
  | zero => intro n acc h; omega
  | succ f ih =>
    intro n acc h
    by_cases h10 : n < 10
    · simp only [natToDigitsAux, if_pos h10]
      unfold parseDigitsAux
      rw [digitVal_digitChar h10]
      unfold parseDigitsAux
      simp
    · have hlt : n / 10 < f := by
        have h1 : n / 10 < n := Nat.div_lt_self (by omega) (by omega)
        omega
      simp only [natToDigitsAux, if_neg h10]
      rw [parseDigitsAux_append, ih (n / 10) acc hlt]
      unfold Option.bind
      unfold parseDigitsAux
      rw [digitVal_digitChar (Nat.mod_lt n (by omega))]
      unfold parseDigitsAux
      rw [List.length_append]
      have hdm : 10 * (n / 10) + n % 10 = n := Nat.div_add_mod n 10
      congr 1
      calc (acc * 10 ^ (natToDigitsAux f (n / 10)).length + n / 10) * 10 + n % 10
          = acc * (10 ^ (natToDigitsAux f (n / 10)).length * 10) +
            (10 * (n / 10) + n % 10) := by ring
        _ = acc * 10 ^ ((natToDigitsAux f (n / 10)).length + [digitChar (n % 10)].length)
            + n := by rw [hdm, List.length_singleton, pow_succ]

/-- Every rendered character is a digit character. -/
theorem natToDigitsAux_mem (fuel : Nat) : ∀ n c, c ∈ natToDigitsAux fuel n →
    ∃ d, d < 10 ∧ c = digitChar d := by
  induction fuel with
  | zero => intro n c h; cases h
  | succ f ih =>
    intro n c h
    by_cases h10 : n < 10
    · rw [natToDigitsAux, if_pos h10] at h
      rcases List.mem_singleton.mp h with rfl
      exact ⟨n, h10, rfl⟩
    · rw [natToDigitsAux, if_neg h10] at h
      rcases List.mem_append.mp h with h | h
      · exact ih (n / 10) c h
      · rcases List.mem_singleton.mp h with rfl
        exact ⟨n % 10, Nat.mod_lt n (by omega), rfl⟩

/-- `n < 10 ^ d` renders with at most `d` digits (for `d ≥ 1`). -/
theorem natToDigitsAux_len (fuel : Nat) : ∀ n d, n < fuel → n < 10 ^ d → 1 ≤ d →
    (natToDigitsAux fuel n).length ≤ d := by
  induction fuel with
  | zero => intro n d h; omega
  | succ f ih =>
    intro n d h hnd hd
    by_cases h10 : n < 10
    · rw [natToDigitsAux, if_pos h10]
      exact hd
    · have hlt : n / 10 < f := by
        have h1 : n / 10 < n := Nat.div_lt_self (by omega) (by omega)
        omega
      have hd2 : 2 ≤ d := by
        by_contra hc
        have hd1 : d = 1 := by omega
        rw [hd1, pow_one] at hnd
        omega
      rw [natToDigitsAux, if_neg h10, List.length_append, List.length_singleton]
      have hdiv : n / 10 < 10 ^ (d - 1) := by
        rw [Nat.div_lt_iff_lt_mul (by omega)]
        calc n < 10 ^ d := hnd
          _ = 10 ^ (d - 1) * 10 := by
            rw [← pow_succ]
            congr 1
            omega
      have := ih (n / 10) (d - 1) hlt hdiv (by omega)
      omega

/-- The rendering of a number is never empty. -/
theorem natToDigits_ne_nil (n : Nat) : natToDigits n ≠ [] := by
  unfold natToDigits natToDigitsAux
  by_cases h : n < 10 <;> simp [h]

/-- Parsing the rendering of `n` from accumulator `0` yields `n`. -/
theorem parse_natToDigits (n : Nat) :
    parseDigitsAux (natToDigits n) 0 = some n := by
  unfold natToDigits
  rw [natToDigitsAux_parse (n + 1) n 0 (Nat.lt_succ_self n)]
  simp

/-- Removing the first `" ETH"` from a string that ends in `" ETH"` and
contains no space before it recovers the prefix. -/
theorem replaceFirstETH_append (cs : List Char) (h : ∀ c ∈ cs, c ≠ ' ') :
    replaceFirstETH (cs ++ [' ', 'E', 'T', 'H']) = cs := by
  induction cs with
  | nil => rfl
  | cons c cs ih =>
    rw [List.cons_append]
    unfold replaceFirstETH
    rw [if_neg ?_]
    · rw [ih (fun x hx => h x (List.mem_cons_of_mem c hx))]
    · intro htake
      have h4 : (c :: (cs ++ [' ', 'E', 'T', 'H'])).take 4
          = c :: (cs ++ [' ', 'E', 'T', 'H']).take 3 := rfl
      rw [h4] at htake
      injection htake with h1 _
      exact h c (List.mem_cons_self c cs) h1

/-- A list none of whose characters is trim whitespace trims to itself. -/
theorem trimChars_eq_self (cs : List Char)
    (h : ∀ c ∈ cs, isTrimSpace c = false) : trimChars cs = cs := by
  have hdw : ∀ (l : List Char), (∀ c ∈ l, isTrimSpace c = false) →
      l.dropWhile isTrimSpace = l := by
    intro l hl
    cases l with
    | nil => rfl
    | cons c cs =>
      rw [List.dropWhile_cons, hl c (List.mem_cons_self c cs)]
      rfl
  unfold trimChars
  rw [hdw cs h]
  rw [hdw cs.reverse (fun c hc => h c (List.mem_reverse.mp hc))]
  exact List.reverse_reverse cs

/-- Splitting at the first dot of `cs ++ '.' :: ds` when `cs` is dot-free. -/
theorem breakDot_append (cs ds : List Char) (h : ∀ c ∈ cs, c ≠ '.') :
    breakDot (cs ++ '.' :: ds) = (cs, some ds) := by
  induction cs with
  | nil => rfl
  | cons c cs ih =>
    rw [List.cons_append]
    unfold breakDot
    rw [if_neg (h c (List.mem_cons_self c cs))]
    rw [ih (fun x hx => h x (List.mem_cons_of_mem c hx))]

/-- A run of zero characters parses to the zero accumulator. -/
theorem parseDigitsAux_zeros (m : Nat) :
    parseDigitsAux (List.replicate m '0') 0 = some 0 := by
  induction m with
  | zero => rfl
  | succ k ih =>
    rw [List.replicate_succ]
    unfold parseDigitsAux
    rw [show digitVal '0' = some 0 from rfl]
    simpa using ih

/-- C5 counterexample: the formatter renders only 6 decimal digits while
base units carry 18, so formatting 1 wei gives `"0.000000 ETH"`, which
parses back to 0, not 1 — parse is not the inverse of format on all
non-negative base-unit amounts. -/
theorem format_parse_roundtrip_fails_at_one_wei :
    parseETH (formatETH 1) = some 0 ∧ parseETH (formatETH 1) ≠ some 1 := by
  decide

/-- C5 (amended): the round trip is exact precisely on the amounts the
6-decimal rendering can carry: for every amount that is a whole multiple of
`10 ^ 12` wei (one micro-ether) — bounded here by `10 ^ 15` micro-ether,
within which the double-precision `parseFloat` of the source is exact —
formatting and parsing returns the amount unchanged. -/
theorem format_parse_roundtrip_on_micro_multiples (k : Nat) (hk : k ≤ 10 ^ 15) :
    parseETH (formatETH (k * 10 ^ 12)) = some (k * 10 ^ 12) := by
  have hmicro : (k * 10 ^ 12 + 5 * 10 ^ 11) / 10 ^ 12 = k := by
    rw [show k * 10 ^ 12 + 5 * 10 ^ 11 = 5 * 10 ^ 11 + 10 ^ 12 * k by ring]
    rw [Nat.add_mul_div_left _ _ (by norm_num)]
    norm_num
  have hflt : k % 10 ^ 6 < 10 ^ 6 := Nat.mod_lt _ (by norm_num)
  have hfmt : formatETH (k * 10 ^ 12) =
      ⟨natToDigits (k / 10 ^ 6) ++ '.' :: pad6 (k % 10 ^ 6) ++ [' ', 'E', 'T', 'H']⟩ := by
    unfold formatETH
    rw [hmicro]
  rw [hfmt]
  have hP : ∀ c ∈ natToDigits (k / 10 ^ 6) ++ '.' :: pad6 (k % 10 ^ 6),
      c ≠ ' ' ∧ isTrimSpace c = false := by
    intro c hc
    rcases List.mem_append.mp hc with hc | hc
    · obtain ⟨d, hd, rfl⟩ := natToDigitsAux_mem _ _ c hc
      exact ⟨(digitChar_props hd).1, (digitChar_props hd).2.2⟩
    · rcases List.mem_cons.mp hc with rfl | hc
      · exact ⟨by decide, by decide⟩
      · unfold pad6 at hc
        rcases List.mem_append.mp hc with hc | hc
        · rw [List.eq_of_mem_replicate hc]
          exact ⟨by decide, by decide⟩
        · obtain ⟨d, hd, rfl⟩ := natToDigitsAux_mem _ _ c hc
          exact ⟨(digitChar_props hd).1, (digitChar_props hd).2.2⟩
  show parseEtherChars (trimChars (replaceFirstETH
      (natToDigits (k / 10 ^ 6) ++ '.' :: pad6 (k % 10 ^ 6) ++ [' ', 'E', 'T', 'H']))) = _
  rw [replaceFirstETH_append _ (fun c hc => (hP c hc).1)]
  rw [trimChars_eq_self _ (fun c hc => (hP c hc).2)]
  have hdot : ∀ c ∈ natToDigits (k / 10 ^ 6), c ≠ '.' := by
    intro c hc
    obtain ⟨d, hd, rfl⟩ := natToDigitsAux_mem _ _ c hc
    exact (digitChar_props hd).2.1
  unfold parseEtherChars
  rw [breakDot_append _ _ hdot]
  dsimp only
  have hempty1 : (natToDigits (k / 10 ^ 6)).isEmpty = false := by
    cases hnd : natToDigits (k / 10 ^ 6) with
    | nil => exact absurd hnd (natToDigits_ne_nil _)
    | cons a l => rfl
  have hlen : (pad6 (k % 10 ^ 6)).length = 6 := by
    unfold pad6
    rw [List.length_append, List.length_replicate]
    have : (natToDigits (k % 10 ^ 6)).length ≤ 6 :=
      natToDigitsAux_len _ _ 6 (Nat.lt_succ_self _) hflt (by norm_num)
    omega
  have hempty2 : (pad6 (k % 10 ^ 6)).isEmpty = false := by
    cases hnd : pad6 (k % 10 ^ 6) with
    | nil => rw [hnd] at hlen; cases hlen
    | cons a l => rfl
  rw [hempty1, hempty2, hlen]
  rw [if_neg (by decide)]
  rw [if_neg (by decide), if_neg (by decide)]
  have hparsef : parseDigitsAux (pad6 (k % 10 ^ 6)) 0 = some (k % 10 ^ 6) := by
    unfold pad6
    rw [parseDigitsAux_append, parseDigitsAux_zeros]
    rw [Option.some_bind]
    exact parse_natToDigits _
  rw [parse_natToDigits, hparsef]
  dsimp only
  have harith : k / 10 ^ 6 * 10 ^ 18 + k % 10 ^ 6 * 10 ^ (18 - 6) = k * 10 ^ 12 := by
    have hdm : 10 ^ 6 * (k / 10 ^ 6) + k % 10 ^ 6 = k := Nat.div_add_mod k (10 ^ 6)
    calc k / 10 ^ 6 * 10 ^ 18 + k % 10 ^ 6 * 10 ^ (18 - 6)
        = (10 ^ 6 * (k / 10 ^ 6) + k % 10 ^ 6) * 10 ^ 12 := by norm_num; ring
      _ = k * 10 ^ 12 := by rw [hdm]
  rw [harith]

/-- Witness for C5 (amended): `0.25` ETH round-trips exactly. -/
theorem format_parse_roundtrip_on_micro_multiples_witness :
    250000 ≤ 10 ^ 15 ∧
    parseETH (formatETH (250000 * 10 ^ 12)) = some (250000 * 10 ^ 12) :=
  ⟨by norm_num, format_parse_roundtrip_on_micro_multiples 250000 (by norm_num)⟩

end DirectGrants
